import Mathlib

/-!
Verification of the electricitymap Ireland parser (src/parsers/IE.py)
against its specification.

The module is shallowly embedded: the three fetch routines become pure
Lean functions from decoded API responses to Option-valued records.
Fallible Python operations (list indexing with [0] or [-1], dict key
lookup, datetime.strptime) become Option; numeric values are modelled
as rationals.
-/

namespace IE

/-- Python string comparison: lexicographic on Unicode code points. -/
def charListLe : List Char → List Char → Bool
  | [], _ => true
  | _ :: _, [] => false
  | a :: as, b :: bs =>
    if a.val < b.val then true
    else if b.val < a.val then false
    else charListLe as bs

/-- Python s1 <= s2 on strings. -/
def pyLe (a b : String) : Bool := charListLe a.data b.data

/-- Python sorted on a two-element list of strings (stable sort). -/
def sort2 (a b : String) : String × String := if pyLe a b then (a, b) else (b, a)

/-- A calendar timestamp, the normalized representation of a parsed
provider timestamp (the provider format carries no timezone). -/
structure DateTime where
  year : Nat
  month : Nat
  day : Nat
  hour : Nat
  minute : Nat
  second : Nat
deriving DecidableEq, Repr

/-- Gregorian leap-year test, as used by the Python datetime validator. -/
def isLeap (y : Nat) : Bool := (y % 4 == 0 && y % 100 != 0) || y % 400 == 0

/-- Number of days in a month, for day-of-month validation. -/
def daysInMonth (y m : Nat) : Nat :=
  if m = 2 then (if isLeap y then 29 else 28)
  else if m = 4 ∨ m = 6 ∨ m = 9 ∨ m = 11 then 30
  else 31

/-- Split a character list on a separator character. -/
def splitOnChar (sep : Char) : List Char → List (List Char)
  | [] => [[]]
  | c :: rest =>
    match splitOnChar sep rest with
    | [] => if c = sep then [[], []] else [[c]]
    | g :: gs => if c = sep then [] :: g :: gs else (c :: g) :: gs

/-- Parse a non-empty all-digit character list as a natural number. -/
def parseDigits (s : List Char) : Option Nat :=
  match s with
  | [] => none
  | _ =>
    if s.all (fun c => c.isDigit) then
      some (s.foldl (fun acc c => acc * 10 + (c.toNat - 48)) 0)
    else none

/-- ASCII lowercasing of one character (the month token in the
provider format is matched case-insensitively, as Python strptime does). -/
def lowerChar (c : Char) : Char :=
  if 65 ≤ c.toNat ∧ c.toNat ≤ 90 then Char.ofNat (c.toNat + 32) else c

/-- Month-abbreviation table of the %b directive. -/
def monthNum (s : List Char) : Option Nat :=
  List.lookup (s.map lowerChar) [
    (['j','a','n'], 1), (['f','e','b'], 2), (['m','a','r'], 3),
    (['a','p','r'], 4), (['m','a','y'], 5), (['j','u','n'], 6),
    (['j','u','l'], 7), (['a','u','g'], 8), (['s','e','p'], 9),
    (['o','c','t'], 10), (['n','o','v'], 11), (['d','e','c'], 12)]

/-- Embedding of datetime.strptime with the shared format
DATE_FORMAT, that is day-Mon-Year Hour:Min:Sec, including the
range validation performed by the datetime constructor. Returns
none where Python raises ValueError. -/
def strptime (s : String) : Option DateTime :=
  match splitOnChar ' ' s.data with
  | [datePart, timePart] =>
    match splitOnChar '-' datePart, splitOnChar ':' timePart with
    | [dStr, monStr, yStr], [hStr, miStr, seStr] =>
      match parseDigits dStr, monthNum monStr, parseDigits yStr,
            parseDigits hStr, parseDigits miStr, parseDigits seStr with
      | some d, some m, some y, some h, some mi, some se =>
        if dStr.length ≤ 2 ∧ yStr.length ≤ 4 ∧ hStr.length ≤ 2 ∧
           miStr.length ≤ 2 ∧ seStr.length ≤ 2 ∧
           1 ≤ y ∧ y ≤ 9999 ∧ 1 ≤ d ∧ d ≤ daysInMonth y m ∧
           h ≤ 23 ∧ mi ≤ 59 ∧ se ≤ 59
        then some ⟨y, m, d, h, mi, se⟩ else none
      | _, _, _, _, _, _ => none
    | _, _ => none
  | _ => none

/-- Zero-pad a natural number to two digits. -/
def pad2 (n : Nat) : String := if n < 10 then "0" ++ toString n else toString n

/-- Zero-pad a year to four digits. -/
def pad4 (n : Nat) : String :=
  if n < 10 then "000" ++ toString n
  else if n < 100 then "00" ++ toString n
  else if n < 1000 then "0" ++ toString n
  else toString n

/-- Embedding of datetime.isoformat for the parsed timestamps
(no timezone, whole seconds). -/
def isoformat (dt : DateTime) : String :=
  pad4 dt.year ++ "-" ++ pad2 dt.month ++ "-" ++ pad2 dt.day ++ "T" ++
  pad2 dt.hour ++ ":" ++ pad2 dt.minute ++ ":" ++ pad2 dt.second

/-- Chronological order on parsed timestamps, via a numeric key. -/
def dtKey (d : DateTime) : Nat :=
  ((((d.year * 13 + d.month) * 32 + d.day) * 24 + d.hour) * 60 + d.minute) * 60
    + d.second

/-- One decoded row of a data or stats response: EffectiveTime, the
field-identifying key, and the numeric Value. -/
structure Row where
  effectiveTime : String
  fieldName : String
  value : ℚ
deriving DecidableEq, Repr

/-- A decoded response object: LastUpdated plus the ordered Rows. -/
structure ApiResponse where
  lastUpdated : String
  rows : List Row
deriving DecidableEq, Repr

/-- One decoded row of the marketdata response: EffectiveTime and
the EurPrice field. -/
structure MarketRow where
  effectiveTime : String
  eurPrice : ℚ
deriving DecidableEq, Repr

/-- A decoded marketdata response object. -/
structure MarketResponse where
  lastUpdated : String
  rows : List MarketRow
deriving DecidableEq, Repr

/-- The FUEL_MAP constant of the source, an association list from
provider fuel code to canonical category. -/
def FUEL_MAP : List (String × String) :=
  [("FUEL_COAL", "coal"),
   ("FUEL_EWIC", "GB->IE"),
   ("FUEL_GAS", "gas"),
   ("FUEL_OTHER_FOSSIL", "unknown"),
   ("FUEL_RENEW", "wind")]

/-- The four canonical categories FUEL_MAP assigns to codes other than
the cross-border-import marker FUEL_EWIC. -/
def validCats : List String := ["coal", "gas", "unknown", "wind"]

/-- Python dict assignment d[k] = v on an association list with unique
keys: replace in place when the key exists, append otherwise. -/
def dictInsert (d : List (String × ℚ)) (k : String) (v : ℚ) : List (String × ℚ) :=
  if d.any (fun p => p.1 == k) then
    d.map (fun p => if p.1 = k then (k, v) else p)
  else d ++ [(k, v)]

/-- The production dict loop of fetch_production: for each
(code, megawatts) pair except the FUEL_EWIC marker, assign
production[FUEL_MAP[code]]; a code missing from FUEL_MAP raises
KeyError, modelled as none. -/
def buildProduction : List (String × ℚ) → List (String × ℚ) → Option (List (String × ℚ))
  | [], acc => some acc
  | (c, v) :: rest, acc =>
    if c = "FUEL_EWIC" then buildProduction rest acc
    else
      match List.lookup c FUEL_MAP with
      | none => none
      | some cat => buildProduction rest (dictInsert acc cat v)

/-- The row-retention rule shared by the queries: keep the rows whose
EffectiveTime equals the LastUpdated of their own response. -/
def retainedRows (obj : ApiResponse) : List Row :=
  obj.rows.filter (fun row => row.effectiveTime == obj.lastUpdated)

/-- The record returned by fetch_production. The storage dict stays
empty (the storage loop is commented out in the source). -/
structure ProductionData where
  countryCode : String
  datetime : DateTime
  production : List (String × ℚ)
  storage : List (String × ℚ)
  source : String
deriving DecidableEq, Repr

/-- Embedding of fetch_production over the two decoded responses
(generationactual, then fuelmix). The datetime comes from strptime on
the generationactual LastUpdated; total generation is the Value of the
first generationactual row whose EffectiveTime equals LastUpdated,
with IndexError on an empty match modelled as none; each retained
fuelmix row contributes Value/100 times the total generation. -/
def fetch_production (country_code : String) (genObj fuelObj : ApiResponse) :
    Option ProductionData :=
  match strptime genObj.lastUpdated with
  | none => none
  | some dt =>
    match (retainedRows genObj).head? with
    | none => none
    | some totalRow =>
      let total_generation := totalRow.value
      let calculated_generation :=
        (retainedRows fuelObj).map
          (fun row => (row.fieldName, row.value / 100 * total_generation))
      match buildProduction calculated_generation [] with
      | none => none
      | some production =>
        some ⟨country_code, dt, production, [],
              "smartgriddashboard.eirgrid.com"⟩

/-- The record returned by fetch_price. -/
structure PriceData where
  countryCode : String
  currency : String
  price : ℚ
  datetime : DateTime
  source : String
deriving DecidableEq, Repr

/-- Embedding of fetch_price over the two decoded responses
(MarketPriceStats, then marketdata). The latest row is the first
stats row whose FieldName is LATEST_MARKET_PRICE; the price is the
EurPrice of the first marketdata row whose EffectiveTime equals the
latest EffectiveTime; each empty match is an IndexError, modelled as
none. -/
def fetch_price (country_code : String) (statsObj : ApiResponse)
    (marketObj : MarketResponse) : Option PriceData :=
  match (statsObj.rows.filter
      (fun row => row.fieldName == "LATEST_MARKET_PRICE")).head? with
  | none => none
  | some latest =>
    match ((marketObj.rows.filter
        (fun row => row.effectiveTime == latest.effectiveTime)).map
        (fun row => row.eurPrice)).head? with
    | none => none
    | some eurPrice =>
      match strptime latest.effectiveTime with
      | none => none
      | some dt =>
        some ⟨country_code, "EUR", eurPrice, dt,
              "smartgriddashboard.eirgrid.com"⟩

/-- The record returned by fetch_exchange. -/
structure ExchangeData where
  sortedCountryCodes : String
  source : String
  datetime : DateTime
  netFlow : ℚ
deriving DecidableEq, Repr

/-- The latest-reading selection of fetch_exchange: the pairs
(EffectiveTime, Value) of rows with a truthy Value, in response order. -/
def exchangeFiltered (obj : ApiResponse) : List (String × ℚ) :=
  obj.rows.filterMap
    (fun row => if row.value = 0 then none else some (row.effectiveTime, row.value))

/-- Embedding of fetch_exchange over the decoded interconnection
response. The latest reading is the last truthy-Value row in response
order ([-1] on the empty list is an IndexError, modelled as none);
country codes are sorted and joined with an arrow; the net flow is
kept as-is when country_code1 is the lexicographically first code and
negated otherwise. -/
def fetch_exchange (country_code1 country_code2 : String) (obj : ApiResponse) :
    Option ExchangeData :=
  match (exchangeFiltered obj).getLast? with
  | none => none
  | some latest =>
    match strptime latest.1 with
    | none => none
    | some dt =>
      let sorted_country_codes := sort2 country_code1 country_code2
      let netFlow := latest.2
      some ⟨sorted_country_codes.1 ++ "->" ++ sorted_country_codes.2,
            "smartgriddashboard.eirgrid.com", dt,
            if country_code1 = sorted_country_codes.1 then netFlow
            else -1 * netFlow⟩

/-- An outbound HTTP GET as issued by the parser: the area and region
query parameters and the optional request timeout in seconds. -/
structure HttpRequest where
  area : String
  region : String
  timeout : Option Nat
deriving DecidableEq, Repr

/-- Region resolution shared by the three routines: ROI for IE,
All otherwise. -/
def regionFor (country_code : String) : String :=
  if country_code = "IE" then "ROI" else "All"

/-- The two GETs issued by fetch_production, both with timeout 5. -/
def fetch_production_requests (country_code : String) : List HttpRequest :=
  [⟨"generationactual", regionFor country_code, some 5⟩,
   ⟨"fuelmix", regionFor country_code, some 5⟩]

/-- The two GETs issued by fetch_price, with no timeout argument. -/
def fetch_price_requests (country_code : String) : List HttpRequest :=
  [⟨"MarketPriceStats", regionFor country_code, none⟩,
   ⟨"marketdata", regionFor country_code, none⟩]

/-- The single GET issued by fetch_exchange, with no timeout argument;
the region is resolved from the second country code. -/
def fetch_exchange_requests (country_code2 : String) : List HttpRequest :=
  [⟨"interconnection", regionFor country_code2, none⟩]

/-- The association list the production loop produces when every code
is mapped and no category repeats: one (category, megawatts) pair per
retained non-marker row, in row order. -/
def prodOf (l : List (String × ℚ)) : List (String × ℚ) :=
  l.filterMap (fun p =>
    if p.1 = "FUEL_EWIC" then none
    else (List.lookup p.1 FUEL_MAP).map (fun cat => (cat, p.2)))

/-- Interconnection response with a single row of flow 10. -/
def exObjTen : ApiResponse :=
  ⟨"01-Jan-2017 00:00:00", [⟨"01-Jan-2017 00:00:00", "INTER", 10⟩]⟩

/-- Interconnection response whose last nonzero row carries an earlier
EffectiveTime than its first row. -/
def exObjOrder : ApiResponse :=
  ⟨"02-Jan-2017 00:00:00",
   [⟨"02-Jan-2017 00:00:00", "INTER", 5⟩,
    ⟨"01-Jan-2017 00:00:00", "INTER", 7⟩]⟩

/-- Generation response: one row matching LastUpdated, total 100 MW. -/
def genEx : ApiResponse :=
  ⟨"01-Jan-2017 12:00:00", [⟨"01-Jan-2017 12:00:00", "GEN", 100⟩]⟩

/-- Fuel-mix response: a single coal row at 50 percent, with a
LastUpdated differing from the one of genEx. -/
def fuelCoal : ApiResponse :=
  ⟨"01-Jan-2017 00:00:00", [⟨"01-Jan-2017 00:00:00", "FUEL_COAL", 50⟩]⟩

/-- Fuel-mix response: a single gas row at 30 percent. -/
def fuelGas : ApiResponse :=
  ⟨"02-Jan-2017 00:00:00", [⟨"02-Jan-2017 00:00:00", "FUEL_GAS", 30⟩]⟩

/-- Fuel-mix response carrying a code absent from FUEL_MAP. -/
def fuelUnmapped : ApiResponse :=
  ⟨"01-Jan-2017 00:00:00", [⟨"01-Jan-2017 00:00:00", "FUEL_OIL", 10⟩]⟩

/-- Fuel-mix response with two retained rows sharing the code
FUEL_COAL, at 10 and 20 percent. -/
def fuelDupCoal : ApiResponse :=
  ⟨"01-Jan-2017 00:00:00",
   [⟨"01-Jan-2017 00:00:00", "FUEL_COAL", 10⟩,
    ⟨"01-Jan-2017 00:00:00", "FUEL_COAL", 20⟩]⟩

/-- The record fetch_production returns on genEx with fuelDupCoal:
the second coal assignment overwrites the first. -/
def recDupCoal : ProductionData :=
  ⟨"IE", ⟨2017, 1, 1, 12, 0, 0⟩, [("coal", 20 / 100 * 100)], [],
   "smartgriddashboard.eirgrid.com"⟩

/-- Stats response whose latest-market-price row points at 06:00. -/
def statsEx : ApiResponse :=
  ⟨"01-Jan-2017 00:00:00",
   [⟨"01-Jan-2017 06:00:00", "LATEST_MARKET_PRICE", 42⟩]⟩

/-- Marketdata response whose only row misses the 06:00 reference. -/
def marketNoMatch : MarketResponse :=
  ⟨"01-Jan-2017 00:00:00", [⟨"01-Jan-2017 07:00:00", 55⟩]⟩

/-- Marketdata response with a row at the 06:00 reference time. -/
def marketMatch : MarketResponse :=
  ⟨"01-Jan-2017 00:00:00", [⟨"01-Jan-2017 06:00:00", 55⟩]⟩

section Lemmas

/-- Enumeration of the successful FUEL_MAP lookups. -/
theorem lookup_FUEL_MAP_elim (c cat : String)
    (h : List.lookup c FUEL_MAP = some cat) :
    (c = "FUEL_COAL" ∧ cat = "coal") ∨ (c = "FUEL_EWIC" ∧ cat = "GB->IE") ∨
    (c = "FUEL_GAS" ∧ cat = "gas") ∨ (c = "FUEL_OTHER_FOSSIL" ∧ cat = "unknown") ∨
    (c = "FUEL_RENEW" ∧ cat = "wind") := by
  simp only [FUEL_MAP, List.lookup] at h
  repeat' split at h
  all_goals simp_all [beq_iff_eq]

/-- FUEL_MAP is injective: two codes mapped to the same category are
equal. -/
theorem lookup_FUEL_MAP_inj (c1 c2 cat : String)
    (h1 : List.lookup c1 FUEL_MAP = some cat)
    (h2 : List.lookup c2 FUEL_MAP = some cat) : c1 = c2 := by
  rcases lookup_FUEL_MAP_elim c1 cat h1 with
    ⟨rfl, rfl⟩ | ⟨rfl, rfl⟩ | ⟨rfl, rfl⟩ | ⟨rfl, rfl⟩ | ⟨rfl, rfl⟩ <;>
  rcases lookup_FUEL_MAP_elim c2 _ h2 with
    ⟨rfl, h⟩ | ⟨rfl, h⟩ | ⟨rfl, h⟩ | ⟨rfl, h⟩ | ⟨rfl, h⟩ <;>
  first
  | rfl
  | exact absurd h (by decide)

/-- Dropping a marker pair leaves prodOf unchanged. -/
theorem prodOf_cons_ewic (v : ℚ) (rest : List (String × ℚ)) :
    prodOf (("FUEL_EWIC", v) :: rest) = prodOf rest := by
  unfold prodOf
  rw [List.filterMap_cons]
  simp

/-- A mapped non-marker pair prepends its category and value. -/
theorem prodOf_cons_mapped (c : String) (v : ℚ) (rest : List (String × ℚ))
    (cat : String) (hne : c ≠ "FUEL_EWIC")
    (hcat : List.lookup c FUEL_MAP = some cat) :
    prodOf ((c, v) :: rest) = (cat, v) :: prodOf rest := by
  unfold prodOf
  rw [List.filterMap_cons]
  simp only [if_neg hne, hcat, Option.map_some']

/-- Membership in prodOf from a mapped non-marker pair. -/
theorem mem_prodOf_of (l : List (String × ℚ)) (q : String × ℚ) (hq : q ∈ l)
    (hne : q.1 ≠ "FUEL_EWIC") (cat : String)
    (hcat : List.lookup q.1 FUEL_MAP = some cat) : (cat, q.2) ∈ prodOf l := by
  unfold prodOf
  apply List.mem_filterMap.mpr
  refine ⟨q, hq, ?_⟩
  rw [if_neg hne, hcat]
  rfl

/-- A key of prodOf comes from a mapped non-marker pair of the input. -/
theorem of_mem_prodOf_keys (l : List (String × ℚ)) (cat : String)
    (h : cat ∈ (prodOf l).map Prod.fst) :
    ∃ q ∈ l, q.1 ≠ "FUEL_EWIC" ∧ List.lookup q.1 FUEL_MAP = some cat := by
  rcases List.mem_map.mp h with ⟨p, hp, hfst⟩
  rcases List.mem_filterMap.mp hp with ⟨q, hq, hf⟩
  by_cases hne : q.1 = "FUEL_EWIC"
  · rw [if_pos hne] at hf
    cases hf
  · rw [if_neg hne] at hf
    cases hl : List.lookup q.1 FUEL_MAP with
    | none =>
      rw [hl] at hf
      cases hf
    | some cat2 =>
      rw [hl, Option.map_some'] at hf
      cases hf
      exact ⟨q, hq, hne, hfst ▸ hl⟩

/-- Distinct codes give distinct categories in prodOf. -/
theorem prodOf_keys_nodup (l : List (String × ℚ))
    (hmap : ∀ p ∈ l, (List.lookup p.1 FUEL_MAP).isSome)
    (hnd : (l.map Prod.fst).Nodup) : ((prodOf l).map Prod.fst).Nodup := by
  induction l with
  | nil => simp [prodOf]
  | cons p rest ih =>
    obtain ⟨c, v⟩ := p
    simp only [List.map_cons, List.nodup_cons] at hnd
    obtain ⟨hcnotin, hndrest⟩ := hnd
    by_cases hne : c = "FUEL_EWIC"
    · subst hne
      rw [prodOf_cons_ewic]
      exact ih (fun q hq => hmap q (List.mem_cons_of_mem _ hq)) hndrest
    · rcases Option.isSome_iff_exists.mp
        (hmap (c, v) (List.mem_cons_self _ _)) with ⟨cat, hcat⟩
      rw [prodOf_cons_mapped c v rest cat hne hcat, List.map_cons,
        List.nodup_cons]
      refine ⟨?_, ih (fun q hq => hmap q (List.mem_cons_of_mem _ hq)) hndrest⟩
      intro hmem
      rcases of_mem_prodOf_keys rest cat hmem with ⟨q, hq, _, hql⟩
      have hqc : q.1 = c := lookup_FUEL_MAP_inj q.1 c cat hql hcat
      apply hcnotin
      rw [← hqc]
      exact List.mem_map_of_mem _ hq

/-- Association-list lookup on pairwise-distinct keys finds each
stored value. -/
theorem lookup_eq_of_mem_nodup (l : List (String × ℚ)) (k : String) (v : ℚ)
    (hnd : (l.map Prod.fst).Nodup) (hmem : (k, v) ∈ l) :
    List.lookup k l = some v := by
  induction l with
  | nil => simp at hmem
  | cons p rest ih =>
    obtain ⟨pk, pv⟩ := p
    simp only [List.map_cons, List.nodup_cons] at hnd
    rcases List.mem_cons.mp hmem with heq | hmem2
    · obtain ⟨rfl, rfl⟩ := Prod.mk.injEq .. ▸ heq
      simp [List.lookup]
    · have hne : (k == pk) = false := by
        apply beq_eq_false_iff_ne.mpr
        intro hkp
        apply hnd.1
        rw [← hkp]
        exact List.mem_map_of_mem _ hmem2
      simp only [List.lookup, hne]
      exact ih hnd.2 hmem2

/-- Assigning a fresh key appends the pair. -/
theorem dictInsert_of_not_mem (d : List (String × ℚ)) (k : String) (v : ℚ)
    (h : k ∉ d.map Prod.fst) : dictInsert d k v = d ++ [(k, v)] := by
  unfold dictInsert
  rw [if_neg]
  intro hany
  rcases List.any_eq_true.mp hany with ⟨p, hp, hbeq⟩
  apply h
  rw [← beq_iff_eq.mp hbeq]
  exact List.mem_map_of_mem _ hp

/-- When every pending code is mapped and the produced categories are
pairwise distinct and fresh for the accumulator, the production loop
appends exactly prodOf of the pending list. -/
theorem buildProduction_eq_prodOf (l : List (String × ℚ)) :
    ∀ acc : List (String × ℚ),
    (∀ p ∈ l, (List.lookup p.1 FUEL_MAP).isSome) →
    ((prodOf l).map Prod.fst).Nodup →
    (∀ cat ∈ (prodOf l).map Prod.fst, cat ∉ acc.map Prod.fst) →
    buildProduction l acc = some (acc ++ prodOf l) := by
  induction l with
  | nil =>
    intro acc _ _ _
    simp [buildProduction, prodOf]
  | cons p rest ih =>
    intro acc hmap hnd hdisj
    obtain ⟨c, v⟩ := p
    by_cases hne : c = "FUEL_EWIC"
    · subst hne
      rw [prodOf_cons_ewic] at hnd hdisj ⊢
      simp only [buildProduction, if_pos rfl]
      exact ih acc (fun q hq => hmap q (List.mem_cons_of_mem _ hq)) hnd hdisj
    · rcases Option.isSome_iff_exists.mp
        (hmap (c, v) (List.mem_cons_self _ _)) with ⟨cat, hcat⟩
      rw [prodOf_cons_mapped c v rest cat hne hcat] at hnd hdisj ⊢
      simp only [List.map_cons, List.nodup_cons] at hnd
      have hcatacc : cat ∉ acc.map Prod.fst :=
        hdisj cat (by simp)
      simp only [buildProduction, if_neg hne, hcat]
      rw [dictInsert_of_not_mem acc cat v hcatacc]
      have hdisj2 : ∀ cat2 ∈ (prodOf rest).map Prod.fst,
          cat2 ∉ (acc ++ [(cat, v)]).map Prod.fst := by
        intro cat2 h2
        rw [List.map_append]
        intro hm
        rcases List.mem_append.mp hm with hm | hm
        · exact hdisj cat2 (List.mem_cons_of_mem _ h2) hm
        · simp only [List.map_cons, List.map_nil, List.mem_singleton] at hm
          exact hnd.1 (hm ▸ h2)
      rw [ih (acc ++ [(cat, v)])
        (fun q hq => hmap q (List.mem_cons_of_mem _ hq)) hnd.2 hdisj2]
      rw [List.append_assoc]
      rfl

/-- The values of prodOf are the values of the non-marker pairs when
every code is mapped. -/
theorem prodOf_snd (l : List (String × ℚ))
    (hmap : ∀ p ∈ l, (List.lookup p.1 FUEL_MAP).isSome) :
    (prodOf l).map Prod.snd =
      (l.filter (fun p => !(p.1 == "FUEL_EWIC"))).map Prod.snd := by
  induction l with
  | nil => rfl
  | cons p rest ih
  =>
    obtain ⟨c, v⟩ := p
    by_cases hne : c = "FUEL_EWIC"
    · subst hne
      rw [prodOf_cons_ewic, List.filter_cons, if_neg (by simp)]
      exact ih (fun q hq => hmap q (List.mem_cons_of_mem _ hq))
    · rcases Option.isSome_iff_exists.mp
        (hmap (c, v) (List.mem_cons_self _ _)) with ⟨cat, hcat⟩
      rw [prodOf_cons_mapped c v rest cat hne hcat, List.filter_cons]
      have hb : (!(c == "FUEL_EWIC")) = true := by
        simp [hne]
      rw [if_pos hb, List.map_cons, List.map_cons]
      exact congrArg (List.cons v)
        (ih (fun q hq => hmap q (List.mem_cons_of_mem _ hq)))

/-- Distributing the percentage scaling over a sum of values. -/
theorem sum_map_div_mul (vs : List ℚ) (t : ℚ) :
    (vs.map (fun v => v / 100 * t)).sum = vs.sum / 100 * t := by
  induction vs with
  | nil => simp
  | cons v rest ih =>
    simp only [List.map_cons, List.sum_cons, ih]
    ring

/-- A key of a pair in a dict after assignment is the assigned key or a
key already present. -/
theorem mem_dictInsert_fst (d : List (String × ℚ)) (k : String) (v : ℚ)
    (p : String × ℚ) (hp : p ∈ dictInsert d k v) :
    p.1 = k ∨ p.1 ∈ d.map Prod.fst := by
  unfold dictInsert at hp
  split at hp
  · rcases List.mem_map.mp hp with ⟨q, hq, heq⟩
    by_cases h : q.1 = k
    · rw [if_pos h] at heq
      left
      rw [← heq]
    · rw [if_neg h] at heq
      right
      rw [← heq]
      exact List.mem_map_of_mem _ hq
  · rcases List.mem_append.mp hp with h | h
    · right
      exact List.mem_map_of_mem _ h
    · left
      simp only [List.mem_singleton] at h
      rw [h]

/-- An unmapped non-marker code anywhere in the pending list makes the
production loop fail. -/
theorem buildProduction_none_of_unmapped (l : List (String × ℚ)) :
    ∀ (acc : List (String × ℚ)) (c : String) (v : ℚ),
    (c, v) ∈ l → c ≠ "FUEL_EWIC" → List.lookup c FUEL_MAP = none →
    buildProduction l acc = none := by
  induction l with
  | nil =>
    intro acc c v hmem _ _
    simp at hmem
  | cons p rest ih =>
    intro acc c v hmem hne hlook
    obtain ⟨pc, pv⟩ := p
    rcases List.mem_cons.mp hmem with heq | hmem2
    · obtain ⟨rfl, rfl⟩ := Prod.mk.injEq .. ▸ heq
      simp only [buildProduction, if_neg hne, hlook]
    · by_cases hpc : pc = "FUEL_EWIC"
      · simp only [buildProduction, if_pos hpc]
        exact ih acc c v hmem2 hne hlook
      · simp only [buildProduction, if_neg hpc]
        cases hl : List.lookup pc FUEL_MAP with
        | none => rfl
        | some cat => exact ih _ c v hmem2 hne hlook

/-- Keys stay inside the four canonical categories through the
production loop. -/
theorem buildProduction_keys_valid (l : List (String × ℚ)) :
    ∀ (acc res : List (String × ℚ)),
    buildProduction l acc = some res →
    (∀ k ∈ acc.map Prod.fst, k ∈ validCats) →
    ∀ k ∈ res.map Prod.fst, k ∈ validCats := by
  induction l with
  | nil =>
    intro acc res h hacc
    cases h
    exact hacc
  | cons p rest ih =>
    intro acc res h hacc
    obtain ⟨pc, pv⟩ := p
    by_cases hpc : pc = "FUEL_EWIC"
    · simp only [buildProduction, if_pos hpc] at h
      exact ih acc res h hacc
    · simp only [buildProduction, if_neg hpc] at h
      cases hl : List.lookup pc FUEL_MAP with
      | none =>
        rw [hl] at h
        cases h
      | some cat =>
        rw [hl] at h
        have hcat : cat ∈ validCats := by
          rcases lookup_FUEL_MAP_elim pc cat hl with
            ⟨_, rfl⟩ | ⟨hc, _⟩ | ⟨_, rfl⟩ | ⟨_, rfl⟩ | ⟨_, rfl⟩
          · decide
          · exact absurd hc hpc
          · decide
          · decide
          · decide
        refine ih _ res h ?_
        intro k hk
        rcases List.mem_map.mp hk with ⟨q, hq, heq⟩
        rcases mem_dictInsert_fst acc cat pv q hq with h1 | h1
        · rw [← heq, h1]
          exact hcat
        · rw [← heq]
          exact hacc _ h1

/-- The datetime of a successful production fetch is the parse of the
generationactual LastUpdated. -/
theorem fetch_production_datetime (cc : String) (gen fuel : ApiResponse)
    (rec : ProductionData) (h : fetch_production cc gen fuel = some rec) :
    strptime gen.lastUpdated = some rec.datetime := by
  unfold fetch_production at h
  cases hdt : strptime gen.lastUpdated with
  | none =>
    rw [hdt] at h
    cases h
  | some dt =>
    rw [hdt] at h
    dsimp only at h
    cases htot : (retainedRows gen).head? with
    | none =>
      rw [htot] at h
      cases h
    | some totalRow =>
      rw [htot] at h
      dsimp only at h
      cases hbp : buildProduction
          ((retainedRows fuel).map
            (fun row => (row.fieldName, row.value / 100 * totalRow.value))) [] with
      | none =>
        rw [hbp] at h
        cases h
      | some production =>
        rw [hbp] at h
        dsimp only at h
        cases h
        rfl

end Lemmas

section Claims

/-- Claim C8: parsing the provider timestamp 01-Jan-2017 00:00:00 with
the shared date format and normalizing it yields the timestamp
2017-01-01T00:00:00 in the normalized representation. -/
theorem c8_datetime_roundtrip :
    strptime "01-Jan-2017 00:00:00" = some ⟨2017, 1, 1, 0, 0, 0⟩ ∧
    isoformat ⟨2017, 1, 1, 0, 0, 0⟩ = "2017-01-01T00:00:00" :=
  ⟨by decide, by decide⟩

/-- Claim C5, counterexample: the single GET of fetch_exchange is not
issued with a 5-second timeout; no timeout argument is passed at all. -/
theorem c5_timeout_counterexample :
    ¬ ∀ req ∈ fetch_exchange_requests "IE", req.timeout = some 5 := by
  decide

/-- Claim C5 as amended: both GETs of fetch_production carry a
5-second timeout, while the single GET of fetch_exchange and both
GETs of fetch_price are issued with no explicit timeout. -/
theorem c5_timeouts (country_code : String) :
    (fetch_production_requests country_code).map HttpRequest.timeout =
      [some 5, some 5] ∧
    (fetch_exchange_requests country_code).map HttpRequest.timeout = [none] ∧
    (fetch_price_requests country_code).map HttpRequest.timeout =
      [none, none] :=
  ⟨rfl, rfl, rfl⟩

/-- Claim C5, witness at country code IE. -/
theorem c5_timeouts_witness :
    (fetch_production_requests "IE").map HttpRequest.timeout =
      [some 5, some 5] :=
  (c5_timeouts "IE").1

/-- Claim C9: when every Value of the interconnection response is zero,
the empty Rows list included, fetch_exchange hits the IndexError of
the last-element selection on the empty filtered list and returns no
record. -/
theorem c9_all_zero_rows_fail (country_code1 country_code2 : String)
    (obj : ApiResponse) (h : ∀ r ∈ obj.rows, r.value = 0) :
    fetch_exchange country_code1 country_code2 obj = none := by
  have hempty : exchangeFiltered obj = [] := by
    apply List.filterMap_eq_nil_iff.mpr
    intro r hr
    simp [h r hr]
  unfold fetch_exchange
  rw [hempty]
  rfl

/-- Claim C9, witness: the empty response. -/
theorem c9_all_zero_rows_fail_witness :
    fetch_exchange "GB" "IE" ⟨"01-Jan-2017 00:00:00", []⟩ = none :=
  c9_all_zero_rows_fail "GB" "IE" ⟨"01-Jan-2017 00:00:00", []⟩
    (by intro r hr; simp at hr)

/-- Claim C1: whenever the interconnection response keeps at least one
truthy-Value row, fetch_exchange returns sortedCountryCodes equal to
the two codes in lexicographic order joined with an arrow, and netFlow
equal to the selected raw Value when country_code1 is the
lexicographically first code, and to its negation otherwise; in
particular GB, IE with raw flow 10 gives netFlow 10 and IE, GB with
raw flow 10 gives netFlow -10, both with sortedCountryCodes GB->IE. -/
theorem c1_exchange_sign_convention :
    (∀ country_code1 country_code2 obj t v dt,
      (exchangeFiltered obj).getLast? = some (t, v) →
      strptime t = some dt →
      ∃ rec, fetch_exchange country_code1 country_code2 obj = some rec ∧
        rec.sortedCountryCodes =
          (sort2 country_code1 country_code2).1 ++ "->" ++
            (sort2 country_code1 country_code2).2 ∧
        (country_code1 = (sort2 country_code1 country_code2).1 →
          rec.netFlow = v) ∧
        (country_code1 ≠ (sort2 country_code1 country_code2).1 →
          rec.netFlow = -v)) ∧
    fetch_exchange "GB" "IE" exObjTen =
      some ⟨"GB->IE", "smartgriddashboard.eirgrid.com",
            ⟨2017, 1, 1, 0, 0, 0⟩, 10⟩ ∧
    fetch_exchange "IE" "GB" exObjTen =
      some ⟨"GB->IE", "smartgriddashboard.eirgrid.com",
            ⟨2017, 1, 1, 0, 0, 0⟩, -10⟩ := by
  refine ⟨?_, rfl, ?_⟩
  · intro cc1 cc2 obj t v dt h1 h2
    unfold fetch_exchange
    rw [h1]
    dsimp only
    rw [h2]
    dsimp only
    refine ⟨_, rfl, rfl, ?_, ?_⟩
    · intro hcc
      exact if_pos hcc
    · intro hcc
      rw [if_neg hcc, neg_one_mul]
  · have h : fetch_exchange "IE" "GB" exObjTen =
        some ⟨"GB->IE", "smartgriddashboard.eirgrid.com",
              ⟨2017, 1, 1, 0, 0, 0⟩, -1 * 10⟩ := rfl
    rw [h]
    norm_num

/-- Claim C1, witness at the GB, IE response with raw flow 10. -/
theorem c1_exchange_sign_convention_witness :
    ∃ rec, fetch_exchange "GB" "IE" exObjTen = some rec ∧
      rec.sortedCountryCodes =
        (sort2 "GB" "IE").1 ++ "->" ++ (sort2 "GB" "IE").2 ∧
      ("GB" = (sort2 "GB" "IE").1 → rec.netFlow = 10) ∧
      ("GB" ≠ (sort2 "GB" "IE").1 → rec.netFlow = -10) :=
  c1_exchange_sign_convention.1 "GB" "IE" exObjTen "01-Jan-2017 00:00:00" 10
    ⟨2017, 1, 1, 0, 0, 0⟩ (by decide) (by decide)

/-- Claim C3: fetch_exchange selects, among the truthy-Value rows, the
last one in response order, and uses its EffectiveTime and Value for
the returned record; on a response whose last truthy row carries an
earlier timestamp than its first row, the earlier timestamp is the one
returned, so the selection is not by maximum timestamp. -/
theorem c3_last_row_selection :
    (∀ country_code1 country_code2 obj t v dt,
      (exchangeFiltered obj).getLast? = some (t, v) →
      strptime t = some dt →
      ∃ rec, fetch_exchange country_code1 country_code2 obj = some rec ∧
        rec.datetime = dt ∧ (rec.netFlow = v ∨ rec.netFlow = -v)) ∧
    (∃ rec, fetch_exchange "GB" "IE" exObjOrder = some rec ∧
      rec.datetime = ⟨2017, 1, 1, 0, 0, 0⟩ ∧ rec.netFlow = 7 ∧
      ∃ r, r ∈ exObjOrder.rows ∧ r.value ≠ 0 ∧
        strptime r.effectiveTime = some ⟨2017, 1, 2, 0, 0, 0⟩ ∧
        dtKey ⟨2017, 1, 1, 0, 0, 0⟩ < dtKey ⟨2017, 1, 2, 0, 0, 0⟩) := by
  constructor
  · intro cc1 cc2 obj t v dt h1 h2
    unfold fetch_exchange
    rw [h1]
    dsimp only
    rw [h2]
    dsimp only
    refine ⟨_, rfl, rfl, ?_⟩
    by_cases hcc : cc1 = (sort2 cc1 cc2).1
    · left
      exact if_pos hcc
    · right
      rw [if_neg hcc, neg_one_mul]
  · refine ⟨⟨"GB->IE", "smartgriddashboard.eirgrid.com",
        ⟨2017, 1, 1, 0, 0, 0⟩, 7⟩, rfl, rfl, rfl,
      ⟨"02-Jan-2017 00:00:00", "INTER", 5⟩, ?_, ?_, by decide, by decide⟩
    · simp [exObjOrder]
    · intro hzero
      exact absurd (congrArg Rat.num hzero) (by decide)

/-- Claim C3, witness at the two-row response. -/
theorem c3_last_row_selection_witness :
    ∃ rec, fetch_exchange "GB" "IE" exObjOrder = some rec ∧
      rec.datetime = ⟨2017, 1, 1, 0, 0, 0⟩ ∧
      (rec.netFlow = 7 ∨ rec.netFlow = -7) :=
  c3_last_row_selection.1 "GB" "IE" exObjOrder "01-Jan-2017 00:00:00" 7
    ⟨2017, 1, 1, 0, 0, 0⟩ (by decide) (by decide)

/-- Claim C2, counterexample: with two retained FUEL_COAL rows at 10
and 20 percent and a total generation of 100, the fetch succeeds, yet
the coal entry holds 20 instead of the 10 the claim forces for the
first row, and the production values no longer sum to the scaled sum
of the retained percentages. -/
theorem c2_production_scaling_counterexample :
    (⟨"01-Jan-2017 00:00:00", "FUEL_COAL", 10⟩ : Row) ∈ retainedRows fuelDupCoal ∧
    (∀ r ∈ retainedRows fuelDupCoal, (List.lookup r.fieldName FUEL_MAP).isSome) ∧
    List.lookup "FUEL_COAL" FUEL_MAP = some "coal" ∧
    fetch_production "IE" genEx fuelDupCoal = some recDupCoal ∧
    List.lookup "coal" recDupCoal.production ≠ some ((10 : ℚ) / 100 * 100) ∧
    (recDupCoal.production.map Prod.snd).sum ≠
      (((retainedRows fuelDupCoal).filter
        (fun row => !(row.fieldName == "FUEL_EWIC"))).map Row.value).sum
        / 100 * 100 := by
  refine ⟨by decide, by decide, by decide, rfl, ?_, ?_⟩
  · intro h
    have hL : List.lookup "coal" recDupCoal.production =
        some ((20 : ℚ) / 100 * 100) := rfl
    rw [hL] at h
    have h2 : (20 : ℚ) / 100 * 100 = 10 / 100 * 100 := Option.some.inj h
    norm_num at h2
  · intro h
    have hL : (recDupCoal.production.map Prod.snd).sum =
        (20 : ℚ) / 100 * 100 + 0 := rfl
    have hR : (((retainedRows fuelDupCoal).filter
        (fun row => !(row.fieldName == "FUEL_EWIC"))).map Row.value).sum =
        (10 : ℚ) + (20 + 0) := rfl
    rw [hL, hR] at h
    norm_num at h

/-- Claim C2 as amended: for a generationactual response with a parsed
LastUpdated and a retained total row, and a fuel-mix response whose
retained rows all have codes in FUEL_MAP and pairwise-distinct codes,
the fetch succeeds, each retained non-marker row with code c gives
production[FUEL_MAP[c]] = Value / 100 * total generation, and the
production values sum to the scaled sum of the retained non-marker
percentages. -/
theorem c2_production_scaling (country_code : String) (gen fuel : ApiResponse)
    (dt : DateTime) (totalRow : Row)
    (hdt : strptime gen.lastUpdated = some dt)
    (htot : (retainedRows gen).head? = some totalRow)
    (hmapped : ∀ r ∈ retainedRows fuel, (List.lookup r.fieldName FUEL_MAP).isSome)
    (hnd : ((retainedRows fuel).map Row.fieldName).Nodup) :
    ∃ rec, fetch_production country_code gen fuel = some rec ∧
      (∀ r ∈ retainedRows fuel, r.fieldName ≠ "FUEL_EWIC" →
        ∀ cat, List.lookup r.fieldName FUEL_MAP = some cat →
          List.lookup cat rec.production =
            some (r.value / 100 * totalRow.value)) ∧
      (rec.production.map Prod.snd).sum =
        (((retainedRows fuel).filter
          (fun row => !(row.fieldName == "FUEL_EWIC"))).map Row.value).sum
          / 100 * totalRow.value := by
  set f : Row → String × ℚ :=
    fun row => (row.fieldName, row.value / 100 * totalRow.value) with hf
  set l : List (String × ℚ) := (retainedRows fuel).map f with hl
  have hmapl : ∀ p ∈ l, (List.lookup p.1 FUEL_MAP).isSome := by
    intro p hp
    rcases List.mem_map.mp hp with ⟨r, hr, rfl⟩
    exact hmapped r hr
  have hndl : (l.map Prod.fst).Nodup := by
    rw [hl, List.map_map]
    exact hnd
  have hndcats : ((prodOf l).map Prod.fst).Nodup :=
    prodOf_keys_nodup l hmapl hndl
  have hbp : buildProduction l [] = some ([] ++ prodOf l) :=
    buildProduction_eq_prodOf l [] hmapl hndcats (by simp)
  rw [List.nil_append] at hbp
  unfold fetch_production
  rw [hdt]
  dsimp only
  rw [htot]
  dsimp only
  rw [hbp]
  dsimp only
  refine ⟨_, rfl, ?_, ?_⟩
  · intro r hr hne cat hcat
    have hmem : (cat, (f r).2) ∈ prodOf l :=
      mem_prodOf_of l (f r) (List.mem_map_of_mem f hr) hne cat hcat
    exact lookup_eq_of_mem_nodup (prodOf l) cat ((f r).2) hndcats hmem
  · rw [prodOf_snd l hmapl, hl, List.filter_map, List.map_map]
    have hcomp : (Prod.snd ∘ f) = fun row : Row =>
        row.value / 100 * totalRow.value := rfl
    have hpred : ((fun p : String × ℚ => !(p.1 == "FUEL_EWIC")) ∘ f) =
        fun row : Row => !(row.fieldName == "FUEL_EWIC") := rfl
    rw [hcomp, hpred]
    have hmm : ((retainedRows fuel).filter
        (fun row => !(row.fieldName == "FUEL_EWIC"))).map
          (fun row : Row => row.value / 100 * totalRow.value) =
        (((retainedRows fuel).filter
          (fun row => !(row.fieldName == "FUEL_EWIC"))).map Row.value).map
          (fun v => v / 100 * totalRow.value) := by
      rw [List.map_map]
      rfl
    rw [hmm, sum_map_div_mul]

/-- Claim C2, witness: the coal-only fuel mix at 50 percent of a
100 MW total. -/
theorem c2_production_scaling_witness :
    ∃ rec, fetch_production "IE" genEx fuelCoal = some rec ∧
      (∀ r ∈ retainedRows fuelCoal, r.fieldName ≠ "FUEL_EWIC" →
        ∀ cat, List.lookup r.fieldName FUEL_MAP = some cat →
          List.lookup cat rec.production =
            some (r.value / 100 *
              (⟨"01-Jan-2017 12:00:00", "GEN", 100⟩ : Row).value)) ∧
      (rec.production.map Prod.snd).sum =
        (((retainedRows fuelCoal).filter
          (fun row => !(row.fieldName == "FUEL_EWIC"))).map Row.value).sum
          / 100 * (⟨"01-Jan-2017 12:00:00", "GEN", 100⟩ : Row).value :=
  c2_production_scaling "IE" genEx fuelCoal ⟨2017, 1, 1, 12, 0, 0⟩
    ⟨"01-Jan-2017 12:00:00", "GEN", 100⟩
    (by decide) (by decide) (by decide) (by decide)

/-- Claim C4: a retained fuel-mix row whose code is neither the
FUEL_EWIC marker nor a key of FUEL_MAP makes fetch_production fail
with the missing-key error; no record is returned, so the code is
neither assigned to the unknown category nor dropped. -/
theorem c4_unmapped_code_fails (country_code : String) (gen fuel : ApiResponse)
    (r : Row) (hr : r ∈ retainedRows fuel) (hne : r.fieldName ≠ "FUEL_EWIC")
    (hlook : List.lookup r.fieldName FUEL_MAP = none) :
    fetch_production country_code gen fuel = none := by
  unfold fetch_production
  cases hdt : strptime gen.lastUpdated with
  | none => rfl
  | some dt =>
    dsimp only
    cases htot : (retainedRows gen).head? with
    | none => rfl
    | some totalRow =>
      dsimp only
      have hb : buildProduction
          ((retainedRows fuel).map
            (fun row => (row.fieldName, row.value / 100 * totalRow.value))) []
          = none :=
        buildProduction_none_of_unmapped _ [] r.fieldName
          (r.value / 100 * totalRow.value)
          (List.mem_map_of_mem
            (fun row : Row => (row.fieldName, row.value / 100 * totalRow.value)) hr)
          hne hlook
      rw [hb]

/-- Claim C4, witness: a FUEL_OIL row, absent from FUEL_MAP. -/
theorem c4_unmapped_code_fails_witness :
    fetch_production "IE" genEx fuelUnmapped = none :=
  c4_unmapped_code_fails "IE" genEx fuelUnmapped
    ⟨"01-Jan-2017 00:00:00", "FUEL_OIL", 10⟩ (by decide) (by decide) (by decide)

/-- Claim C6: every key of a returned production mapping is one of
coal, gas, unknown and wind, so the category GB->IE of the
cross-border-import marker never appears as a production key. -/
theorem c6_no_import_category (country_code : String) (gen fuel : ApiResponse)
    (rec : ProductionData) (h : fetch_production country_code gen fuel = some rec) :
    (∀ k ∈ rec.production.map Prod.fst, k ∈ validCats) ∧
    ∀ k ∈ rec.production.map Prod.fst, k ≠ "GB->IE" := by
  have hkeys : ∀ k ∈ rec.production.map Prod.fst, k ∈ validCats := by
    unfold fetch_production at h
    cases hdt : strptime gen.lastUpdated with
    | none =>
      rw [hdt] at h
      cases h
    | some dt =>
      rw [hdt] at h
      dsimp only at h
      cases htot : (retainedRows gen).head? with
      | none =>
        rw [htot] at h
        cases h
      | some totalRow =>
        rw [htot] at h
        dsimp only at h
        cases hbp : buildProduction
            ((retainedRows fuel).map
              (fun row => (row.fieldName, row.value / 100 * totalRow.value))) [] with
        | none =>
          rw [hbp] at h
          cases h
        | some production =>
          rw [hbp] at h
          dsimp only at h
          cases h
          exact buildProduction_keys_valid _ [] production hbp (by simp)
  refine ⟨hkeys, fun k hk => ?_⟩
  have := hkeys k hk
  simp only [validCats, List.mem_cons, List.mem_singleton] at this
  rcases this with rfl | rfl | rfl | rfl | hfalse
  · decide
  · decide
  · decide
  · decide
  · simp at hfalse

/-- Claim C6, witness at the coal-only fuel mix. -/
theorem c6_no_import_category_witness :
    (∀ k ∈ ([("coal", (50 : ℚ) / 100 * 100)] : List (String × ℚ)).map Prod.fst,
      k ∈ validCats) ∧
    ∀ k ∈ ([("coal", (50 : ℚ) / 100 * 100)] : List (String × ℚ)).map Prod.fst,
      k ≠ "GB->IE" :=
  c6_no_import_category "IE" genEx fuelCoal
    ⟨"IE", ⟨2017, 1, 1, 12, 0, 0⟩, [("coal", 50 / 100 * 100)], [],
     "smartgriddashboard.eirgrid.com"⟩ rfl

/-- Claim C7: fetch_price returns no record when no stats row is
tagged LATEST_MARKET_PRICE or when no marketdata row carries the
reference EffectiveTime, and otherwise the returned price is the
EurPrice of the first matching marketdata row. -/
theorem c7_price_reference_match :
    (∀ country_code statsObj marketObj,
      statsObj.rows.filter (fun row => row.fieldName == "LATEST_MARKET_PRICE")
        = [] →
      fetch_price country_code statsObj marketObj = none) ∧
    (∀ country_code statsObj marketObj latest,
      (statsObj.rows.filter
        (fun row => row.fieldName == "LATEST_MARKET_PRICE")).head?
        = some latest →
      marketObj.rows.filter
        (fun row => row.effectiveTime == latest.effectiveTime) = [] →
      fetch_price country_code statsObj marketObj = none) ∧
    (∀ country_code statsObj marketObj latest mrow rest rec,
      (statsObj.rows.filter
        (fun row => row.fieldName == "LATEST_MARKET_PRICE")).head?
        = some latest →
      marketObj.rows.filter
        (fun row => row.effectiveTime == latest.effectiveTime) = mrow :: rest →
      fetch_price country_code statsObj marketObj = some rec →
      rec.price = mrow.eurPrice) := by
  refine ⟨?_, ?_, ?_⟩
  · intro cc statsObj marketObj h
    unfold fetch_price
    rw [h]
    rfl
  · intro cc statsObj marketObj latest hlat hm
    unfold fetch_price
    rw [hlat]
    dsimp only
    rw [hm]
    rfl
  · intro cc statsObj marketObj latest mrow rest rec hlat hm hrec
    unfold fetch_price at hrec
    rw [hlat] at hrec
    dsimp only at hrec
    rw [hm] at hrec
    simp only [List.map_cons, List.head?_cons] at hrec
    cases hstr : strptime latest.effectiveTime with
    | none =>
      rw [hstr] at hrec
      cases hrec
    | some dt =>
      rw [hstr] at hrec
      dsimp only at hrec
      cases hrec
      rfl

/-- Claim C7, witness: the empty stats, the disjoint-timestamp pair,
and the matching pair at EUR price 55. -/
theorem c7_price_reference_match_witness :
    fetch_price "IE" ⟨"01-Jan-2017 00:00:00", []⟩ marketMatch = none ∧
    fetch_price "IE" statsEx marketNoMatch = none ∧
    (⟨"IE", "EUR", 55, ⟨2017, 1, 1, 6, 0, 0⟩,
      "smartgriddashboard.eirgrid.com"⟩ : PriceData).price =
      (⟨"01-Jan-2017 06:00:00", 55⟩ : MarketRow).eurPrice :=
  ⟨c7_price_reference_match.1 "IE" ⟨"01-Jan-2017 00:00:00", []⟩ marketMatch rfl,
   c7_price_reference_match.2.1 "IE" statsEx marketNoMatch
     ⟨"01-Jan-2017 06:00:00", "LATEST_MARKET_PRICE", 42⟩ (by decide) (by decide),
   c7_price_reference_match.2.2 "IE" statsEx marketMatch
     ⟨"01-Jan-2017 06:00:00", "LATEST_MARKET_PRICE", 42⟩
     ⟨"01-Jan-2017 06:00:00", 55⟩ []
     ⟨"IE", "EUR", 55, ⟨2017, 1, 1, 6, 0, 0⟩, "smartgriddashboard.eirgrid.com"⟩
     (by decide) (by decide) rfl⟩

/-- Claim C10: the datetime of a returned ProductionRecord depends only
on the generationactual response, so varying the fuel-mix response
never changes it; fuel rows are retained against the LastUpdated of
the fuel-mix response itself, and the two LastUpdated values are never
compared, as the successful fetch with differing LastUpdated values
shows. -/
theorem c10_datetime_from_generation :
    (∀ country_code gen fuel1 fuel2 rec1 rec2,
      fetch_production country_code gen fuel1 = some rec1 →
      fetch_production country_code gen fuel2 = some rec2 →
      rec1.datetime = rec2.datetime) ∧
    fetch_production "IE" genEx fuelCoal =
      some ⟨"IE", ⟨2017, 1, 1, 12, 0, 0⟩, [("coal", 50 / 100 * 100)], [],
            "smartgriddashboard.eirgrid.com"⟩ ∧
    genEx.lastUpdated ≠ fuelCoal.lastUpdated := by
  refine ⟨?_, rfl, by decide⟩
  intro cc gen fuel1 fuel2 rec1 rec2 h1 h2
  have e1 := fetch_production_datetime cc gen fuel1 rec1 h1
  have e2 := fetch_production_datetime cc gen fuel2 rec2 h2
  rw [e1] at e2
  exact (Option.some.injEq _ _ ▸ e2 : _)

/-- Claim C10, witness: the same generationactual response against the
coal fuel mix and the gas fuel mix. -/
theorem c10_datetime_from_generation_witness :
    (⟨"IE", ⟨2017, 1, 1, 12, 0, 0⟩, [("coal", 50 / 100 * 100)], [],
      "smartgriddashboard.eirgrid.com"⟩ : ProductionData).datetime =
    (⟨"IE", ⟨2017, 1, 1, 12, 0, 0⟩, [("gas", 30 / 100 * 100)], [],
      "smartgriddashboard.eirgrid.com"⟩ : ProductionData).datetime :=
  c10_datetime_from_generation.1 "IE" genEx fuelCoal fuelGas _ _ rfl rfl

end Claims

end IE
